import Mathlib

/-!
Verification development for the chadtree core: the filesystem tree model
(`chadtree/fs/cartographer.py`) and the cut/copy operation planner
(`chadtree/transitions/cut_copy.py`).

Paths are modelled as lists of components (`List String`); machine mode
bits as `Nat`; Python `set[Mode]` as `Finset Mode`; fallible OS calls as
`Except OsErr`.  The filesystem is a snapshot record of the answers the
OS primitives give (stat without follow, stat with follow, directory
listing); inconsistent snapshots model mid-operation races.
-/

namespace Chadtree

/-- The `Mode` enumeration from `chadtree/fs/types.py`, as listed in the
data model of the spec. -/
inductive Mode where
  | folder
  | file
  | pipe
  | socket
  | link
  | orphan_link
  | executable
  | other_writable
  | sticky_dir
  | set_gid
  | set_uid
deriving DecidableEq, Repr

/-- Error classes an OS stat / listdir call can raise.  `fileNotFound`
is the Python exception `FileNotFoundError`; any other `OSError` subclass (e.g.
`PermissionError`) is a distinct constructor, since the source catches
only `FileNotFoundError`. -/
inductive OsErr where
  | fileNotFound
  | permissionDenied
  | otherErr
deriving DecidableEq, Repr

/-- A path, as a list of components below the filesystem root. -/
abbrev FPath := List String

/-- A snapshot of the answers the OS gives: `stat(path, follow_symlinks=False)`,
`stat(path, follow_symlinks=True)` and `listdir(path)`. -/
structure Fs where
  statNF : FPath → Except OsErr Nat
  statF : FPath → Except OsErr Nat
  listing : FPath → Except OsErr (List String)

/-- `stat.S_IFMT`: the file-type bit field of a raw mode. -/
def S_IFMT (m : Nat) : Nat := m &&& 0o170000

def S_ISDIR (m : Nat) : Bool := S_IFMT m == 0o040000
def S_ISREG (m : Nat) : Bool := S_IFMT m == 0o100000
def S_ISFIFO (m : Nat) : Bool := S_IFMT m == 0o010000
def S_ISSOCK (m : Nat) : Bool := S_IFMT m == 0o140000
def S_ISLNK (m : Nat) : Bool := S_IFMT m == 0o120000

def S_IEXEC : Nat := 0o100
def S_IWOTH : Nat := 0o002
def S_ISVTX : Nat := 0o1000
def S_ISGID : Nat := 0o2000
def S_ISUID : Nat := 0o4000

/-- One conditional tag of the classifier: `{m}` when the condition holds,
else the empty set. -/
def modeIf (c : Bool) (m : Mode) : Finset Mode := if c then {m} else ∅

/-- `_fs_modes` from `cartographer.py`: the set of tags yielded for raw
stat bits — `folder`/`file`/`pipe`/`socket` from the type field, plus one
tag per permission bit of `_FILE_MODES` with `stat & bit == bit`. -/
def _fs_modes (stat : Nat) : Finset Mode :=
  modeIf (S_ISDIR stat) .folder ∪
  modeIf (S_ISREG stat) .file ∪
  modeIf (S_ISFIFO stat) .pipe ∪
  modeIf (S_ISSOCK stat) .socket ∪
  modeIf (stat &&& S_IEXEC == S_IEXEC) .executable ∪
  modeIf (stat &&& S_IWOTH == S_IWOTH) .other_writable ∪
  modeIf (stat &&& S_ISVTX == S_ISVTX) .sticky_dir ∪
  modeIf (stat &&& S_ISGID == S_ISGID) .set_gid ∪
  modeIf (stat &&& S_ISUID == S_ISUID) .set_uid

/-- `_fs_stat` from `cartographer.py`.  `try: stat(path, follow_symlinks=False)`
with `except FileNotFoundError` giving `{orphan_link}`; a symlink is stat-ed again
following links, again with only `FileNotFoundError` absorbed; other stat
errors propagate. -/
def _fs_stat (fs : Fs) (path : FPath) : Except OsErr (Finset Mode) :=
  match fs.statNF path with
  | .error .fileNotFound => .ok {Mode.orphan_link}
  | .error e => .error e
  | .ok info =>
    if S_ISLNK info then
      match fs.statF path with
      | .error .fileNotFound => .ok {Mode.orphan_link}
      | .error e => .error e
      | .ok link_info => .ok (_fs_modes link_info ∪ {Mode.link})
    else
      .ok (_fs_modes info)

/-- `os.path.basename` on a component list: the last component (empty for
the filesystem root). -/
def basename (p : FPath) : String := p.getLast?.getD ""

/-- Index of the last `'.'` in a character list, if any. -/
def lastDotIdx : List Char → Option Nat
  | [] => none
  | c :: cs =>
    match lastDotIdx cs with
    | some i => some (i + 1)
    | none => if c = '.' then some 0 else none

/-- `os.path.splitext` on a bare name (no separators): split at the last
dot unless every character before it is itself a dot (so leading dots,
as in `.bashrc`, never start an extension). -/
def splitext (name : String) : String × String :=
  let cs := name.toList
  match lastDotIdx cs with
  | none => (name, "")
  | some i =>
    if (cs.take i).all (· = '.') then (name, "")
    else (String.mk (cs.take i), String.mk (cs.drop i))

mutual
/-- A tree node (`chadtree/fs/types.py`): path, mode set, base name,
optional children mapping (insertion-ordered, as a Python dict), optional
extension.  `children = none` (a collapsed folder or a leaf) is distinct
from `children = some .nil` (a built-but-empty mapping). -/
inductive Node where
  | mk (path : FPath) (mode : Finset Mode) (name : String)
       (children : Option Children) (ext : Option String)
inductive Children where
  | nil
  | cons (key : FPath) (val : Node) (rest : Children)
end

def Node.path : Node → FPath
  | .mk p _ _ _ _ => p

def Node.mode : Node → Finset Mode
  | .mk _ m _ _ _ => m

def Node.name : Node → String
  | .mk _ _ n _ _ => n

def Node.children : Node → Option Children
  | .mk _ _ _ c _ => c

def Node.ext : Node → Option String
  | .mk _ _ _ _ e => e

def Children.ofList : List (FPath × Node) → Children
  | [] => .nil
  | (k, v) :: rest => .cons k v (Children.ofList rest)

/-- The keys of a children mapping, in insertion order. -/
def Children.keys : Children → List FPath
  | .nil => []
  | .cons k _ rest => k :: rest.keys

/-- The entries of a children mapping, in insertion order. -/
def Children.entries : Children → List (FPath × Node)
  | .nil => []
  | .cons k v rest => (k, v) :: rest.entries

/-- The expansion index: the set of paths kept expanded, supplied by the
caller on every build/update call. -/
abbrev Index := List FPath

/-- Errors of the builder: a propagated OS error, or exhaustion of the
recursion budget (an artifact of the embedding: the Python recursion has
no such budget, and every theorem below is stated on `.ok` results or
concrete sufficient budgets). -/
inductive BErr where
  | os (e : OsErr)
  | fuel
deriving DecidableEq, Repr

/-- Sequential effectful map, as a Python comprehension evaluates: the
first error aborts the whole construction. -/
def mapME {α ε β : Type} (f : α → Except ε β) : List α → Except ε (List β)
  | [] => .ok []
  | a :: rest =>
    match f a with
    | .error e => .error e
    | .ok b => (mapME f rest).map (b :: ·)

/-- `new` from `cartographer.py`: build a node for `root`.  Non-folders
become leaves with `ext` from `splitext`; folders in the index list their
entries and recursively build each child keyed by `join(root, d)`;
folders outside the index are collapsed (`children` absent). -/
def new (fs : Fs) : Nat → FPath → Index → Except BErr Node
  | 0, _, _ => .error .fuel
  | fuel + 1, root, index =>
    match _fs_stat fs root with
    | .error e => .error (.os e)
    | .ok mode =>
      let name := basename root
      if Mode.folder ∉ mode then
        .ok (.mk root mode name none (some (splitext name).2))
      else if root ∈ index then
        match fs.listing root with
        | .error e => .error (.os e)
        | .ok entries =>
          match mapME (fun d => (new fs fuel (root ++ [d]) index).map
              (fun nd => (root ++ [d], nd))) entries with
          | .error e => .error e
          | .ok pairs => .ok (.mk root mode name (some (Children.ofList pairs)) none)
      else
        .ok (.mk root mode name none none)

mutual
/-- `_update` from `cartographer.py`: a node whose path is in `paths` is
rebuilt fresh via `new`; any other node is re-made with the same identity
fields and a children mapping rebuilt from `root.children or {}` — so a
node with absent children comes back with a present empty mapping. -/
def _update (fs : Fs) (fuel : Nat) (index : Index) (paths : List FPath) :
    Node → Except BErr Node
  | .mk p m n children ext =>
    if p ∈ paths then
      new fs fuel p index
    else
      match children with
      | none => .ok (.mk p m n (some .nil) ext)
      | some cs =>
        match _updateChildren fs fuel index paths cs with
        | .error e => .error e
        | .ok cs2 => .ok (.mk p m n (some cs2) ext)

def _updateChildren (fs : Fs) (fuel : Nat) (index : Index) (paths : List FPath) :
    Children → Except BErr Children
  | .nil => .ok .nil
  | .cons k v rest =>
    match _update fs fuel index paths v with
    | .error e => .error e
    | .ok v2 =>
      match _updateChildren fs fuel index paths rest with
      | .error e => .error e
      | .ok rest2 => .ok (.cons k v2 rest2)
end

/-- `update` from `cartographer.py`: run the `_update` walk, and recover
from a `FileNotFoundError` (only) by a fresh `new` of the root path. -/
def update (fs : Fs) (fuel : Nat) (root : Node) (index : Index)
    (paths : List FPath) : Except BErr Node :=
  match _update fs fuel index paths root with
  | .error (.os .fileNotFound) => new fs fuel root.path index
  | r => r

/-- `is_dir` from `cartographer.py`. -/
def is_dir (node : Node) : Bool := decide (Mode.folder ∈ node.mode)

/-! Concrete filesystem snapshots used to evaluate the definitions. -/

/-- A snapshot on which every OS call reports not-found. -/
def fsEmpty : Fs where
  statNF := fun _ => .error .fileNotFound
  statF := fun _ => .error .fileNotFound
  listing := fun _ => .error .fileNotFound

/-- A snapshot where stat of `["q"]` fails with permission denied. -/
def fsPerm : Fs where
  statNF := fun p => match p with
    | ["q"] => .error .permissionDenied
    | _ => .error .fileNotFound
  statF := fun _ => .error .fileNotFound
  listing := fun _ => .error .fileNotFound

/-- A snapshot where `["dev", "tty0"]` is a character device with
permission bits `0o600`: none of the type or flag bits the classifier reads. -/
def fsChar : Fs where
  statNF := fun p => match p with
    | ["dev", "tty0"] => .ok 0o020600
    | _ => .error .fileNotFound
  statF := fun _ => .error .fileNotFound
  listing := fun _ => .error .fileNotFound

/-- A snapshot where `["ln"]` is a symlink whose target does not resolve. -/
def fsDangling : Fs where
  statNF := fun p => match p with
    | ["ln"] => .ok 0o120777
    | _ => .error .fileNotFound
  statF := fun _ => .error .fileNotFound
  listing := fun _ => .error .fileNotFound

/-- A snapshot where `["ln"]` is a symlink whose follow stat fails with
permission denied rather than not-found. -/
def fsLinkPerm : Fs where
  statNF := fun p => match p with
    | ["ln"] => .ok 0o120777
    | _ => .error .fileNotFound
  statF := fun _ => .error .permissionDenied
  listing := fun _ => .error .fileNotFound

/-- A snapshot with a root folder `["r"]` containing a regular file
`a.txt` and a subfolder `b`. -/
def fs0 : Fs where
  statNF := fun p => match p with
    | ["r"] => .ok 0o040755
    | ["r", "a.txt"] => .ok 0o100644
    | ["r", "b"] => .ok 0o040755
    | _ => .error .fileNotFound
  statF := fun _ => .error .fileNotFound
  listing := fun p => match p with
    | ["r"] => .ok ["a.txt", "b"]
    | _ => .error .fileNotFound

/-- A race snapshot: the root `["r"]` has disappeared (stat not-found),
while its child `["r", "c"]` still stats as a folder but can no longer be
listed — the shape that makes the update walk raise not-found. -/
def fs8 : Fs where
  statNF := fun p => match p with
    | ["r", "c"] => .ok 0o040755
    | _ => .error .fileNotFound
  statF := fun _ => .error .fileNotFound
  listing := fun _ => .error .fileNotFound

/-- The node `new fs0 3 ["r"] [["r"]]` evaluates to: the expanded root
with a file leaf and a collapsed subfolder. -/
def nd0 : Node :=
  .mk ["r"] {Mode.folder, Mode.executable} "r"
    (some (.cons ["r", "a.txt"] (.mk ["r", "a.txt"] {Mode.file} "a.txt" none (some ".txt"))
      (.cons ["r", "b"] (.mk ["r", "b"] {Mode.folder, Mode.executable} "b" none none) .nil)))
    none

/-- A leaf node (no children mapping), as `new` builds for a file. -/
def leaf0 : Node := .mk ["r", "a.txt"] {Mode.file} "a.txt" none (some ".txt")

/-- A tree over the past state of `fs8`: an expanded root with one collapsed
folder child `["r", "c"]`. -/
def tree8 : Node :=
  .mk ["r"] {Mode.folder, Mode.executable} "r"
    (some (.cons ["r", "c"] (.mk ["r", "c"] {Mode.folder, Mode.executable} "c" none none) .nil))
    none

/-!
The cut/copy operation planner, `chadtree/transitions/cut_copy.py`.

External collaborators are modelled at their interface, as the spec
scopes them: `exists(path, follow=False)` is a predicate `ex` on paths
(spec §6 `pathExists`); `Nvim.input` is an answer source `ans : Nat →
Option String` indexed by prompt number (`none` = no answer; Python also
treats the empty string as falsy); `Nvim.confirm` is an `Option Bool`.
The `PurePath` operations: `.name` is the last component, `.parent`
drops it, `/` appends one component.
-/

/-- `PurePath.parent`: drop the last component. -/
def parentPath (p : FPath) : FPath := p.dropLast

/-- `_find_dest` from `cut_copy.py`: anchor at the target node if it is a
folder, else at its parent, and append the base name of the source. -/
def _find_dest (src : FPath) (node : Node) : FPath :=
  (if is_dir node then node.path else parentPath node.path) ++ [basename src]

/-- `q` is a (non-strict) ancestor of `p`: its components lead `p`. -/
def ancestorOf : FPath → FPath → Bool
  | [], _ => true
  | _ :: _, [] => false
  | a :: as, b :: bs => a == b && ancestorOf as bs

/-- Modelled from the spec: `unify_ancestors` is imported from
`chadtree/fs/ops.py`, which is not among the provided sources.  Spec:
"overlapping ancestor/descendant selections are collapsed so no selected
path is itself inside another selected path (an ancestor-deduplication
pass over the raw selection)".  A path is kept iff no distinct selected
path is a proper ancestor of it. -/
def unify_ancestors (selection : List FPath) : List FPath :=
  selection.filter (fun p =>
    decide (∀ q ∈ selection, ¬(ancestorOf q p = true ∧ q ≠ p)))

/-- Modelled from the spec: `ancestors` is imported from
`chadtree/fs/ops.py`, which is not among the provided sources.  Spec §4.4:
the forbidden set contains the working directory, the tree root "or any
ancestor of the working directory".  Modelled as all proper leading
segments of a path. -/
def ancestors (p : FPath) : List FPath :=
  (List.range p.length).map (fun i => p.take i)

/-- `set.isdisjoint`: no common member. -/
def disjointP (a b : List FPath) : Bool := a.all (fun p => decide (p ∉ b))

/-- Modelled from the spec: the sort key `pathsort_key` comes from the
external `std2.locale` module; the spec asks only for a deterministic
"path-aware sort".  Modelled as componentwise lexicographic comparison. -/
def pathKeyLe : FPath → FPath → Bool
  | [], _ => true
  | _ :: _, [] => false
  | a :: as, b :: bs => if a = b then pathKeyLe as bs else decide (a < b)

/-- Insertion step of the deterministic sort of collision pairs. -/
def insertPair (x : FPath × FPath) :
    List (FPath × FPath) → List (FPath × FPath)
  | [] => [x]
  | y :: ys => if pathKeyLe x.1 y.1 then x :: y :: ys else y :: insertPair x ys

/-- `sorted(pairs, key=pathsort_key of the source)`: a deterministic sort
of the collision pairs by source path. -/
def sortPairs : List (FPath × FPath) → List (FPath × FPath)
  | [] => []
  | x :: xs => insertPair x (sortPairs xs)

/-- Python `dict.get`-style lookup on an association list. -/
def lookupP (l : List (FPath × FPath)) (k : FPath) : Option FPath :=
  (l.find? (fun sd => decide (sd.1 = k))).map Prod.snd

/-- The dict merge `{**pre_operations, **new_operations}`: keys keep
`pre_operations` order, values overridden by `new_operations`; keys only
in `new_operations` are appended. -/
def mergeOps (pre renamed : List (FPath × FPath)) : List (FPath × FPath) :=
  pre.map (fun sd => match lookupP renamed sd.1 with
    | some d => (sd.1, d)
    | none => sd) ++
  renamed.filter (fun sd => decide (sd.1 ∉ pre.map Prod.fst))

/-- The mutable state of the collision-resolution `while` loop:
`pre` is `pre_existing` (a dict in insertion order; `popitem` takes the
last entry), `renamed` is `new_operations`, and `prompts` counts the
prompts issued so far (it indexes the answer source). -/
structure LoopState where
  pre : List (FPath × FPath)
  renamed : List (FPath × FPath)
  prompts : Nat
deriving DecidableEq, Repr

/-- Outcome of running the collision loop under a bounded step budget:
either the `while` exited, or the budget ran out with the loop still
going (the Python loop has no budget; an exhausted budget stands for a
loop that is still running). -/
inductive LoopOut where
  | done (st : LoopState)
  | out_of_fuel (st : LoopState)
deriving DecidableEq, Repr

/-- The collision-resolution `while pre_existing:` loop of `_operation`.
Each iteration pops the last entry, prompts (consuming answer number
`st.prompts`), and: on a falsy answer re-inserts the entry and breaks;
on a colliding alternate re-inserts the entry with the new destination;
otherwise moves the entry to `renamed`. -/
def collision_loop (ex : FPath → Bool) (ans : Nat → Option String) :
    Nat → LoopState → LoopOut
  | fuel, st =>
    match st.pre.getLast? with
    | none => .done st
    | some (source, dest) =>
      match fuel with
      | 0 => .out_of_fuel st
      | fuel + 1 =>
        let rest := st.pre.dropLast
        let resp := ans st.prompts
        match (match resp with
               | none => none
               | some r => if r = "" then none else some (parentPath dest ++ [r])) with
        | none => .done ⟨rest ++ [(source, dest)], st.renamed, st.prompts + 1⟩
        | some new_dest =>
          if ex new_dest then
            collision_loop ex ans fuel ⟨rest ++ [(source, new_dest)], st.renamed, st.prompts + 1⟩
          else
            collision_loop ex ans fuel ⟨rest, st.renamed ++ [(source, new_dest)], st.prompts + 1⟩

/-- Observable outcome of `_operation`.  `committed ops` is the only
outcome in which the `action` callback (the filesystem move/copy) is
invoked, and `ops` is the mapping it receives; every other outcome
performs no filesystem mutation. -/
inductive OpResult where
  | nothing_select
  | forbidden
  | collision_error (pairs : List (FPath × FPath))
  | cancelled
  | committed (ops : List (FPath × FPath))
  | suspended (st : LoopState)
deriving DecidableEq, Repr

/-- `_operation` from `cut_copy.py`: guard the unified selection against
emptiness and the forbidden set, propose destinations, filter the
collisions, run the negotiation loop, and either report the remaining
collisions, cancel on a non-affirmative confirmation, or invoke the
action with the merged mapping. -/
def _operation (node : Option Node) (selection : List FPath)
    (nono : List FPath) (ex : FPath → Bool) (ans : Nat → Option String)
    (confirm : Option Bool) (fuel : Nat) : OpResult :=
  let unified := unify_ancestors selection
  if unified.isEmpty || node.isNone then .nothing_select
  else
    match node with
    | none => .nothing_select
    | some node =>
      if ¬ disjointP unified nono then .forbidden
      else
        let pre_operations := unified.map (fun src => (src, _find_dest src node))
        let pre_existing := pre_operations.filter (fun sd => ex sd.2)
        match collision_loop ex ans fuel ⟨pre_existing, [], 0⟩ with
        | .out_of_fuel st => .suspended st
        | .done st =>
          if ¬ st.pre.isEmpty then
            .collision_error (sortPairs st.pre)
          else
            match confirm with
            | some true => .committed (mergeOps pre_operations st.renamed)
            | _ => .cancelled

/-- `_cut` from `cut_copy.py`: the forbidden set is the working
directory, the tree root, and their ancestors; the action is `cut`
(`is_move = True`). -/
def _cut (cwd root_path : FPath) (node : Option Node) (selection : List FPath)
    (ex : FPath → Bool) (ans : Nat → Option String) (confirm : Option Bool)
    (fuel : Nat) : OpResult :=
  _operation node selection ([cwd, root_path] ++ ancestors cwd ++ ancestors root_path)
    ex ans confirm fuel

/-- `_copy` from `cut_copy.py`: same planner with an empty forbidden
set; the action is `copy` (`is_move = False`). -/
def _copy (node : Option Node) (selection : List FPath) (ex : FPath → Bool)
    (ans : Nat → Option String) (confirm : Option Bool) (fuel : Nat) : OpResult :=
  _operation node selection [] ex ans confirm fuel

/-- The collision loop never exits: every step budget is exhausted with
the loop still running. -/
def loopRunsForever (ex : FPath → Bool) (ans : Nat → Option String)
    (st : LoopState) : Prop :=
  ∀ fuel, ∃ st2, collision_loop ex ans fuel st = .out_of_fuel st2

/-! Concrete planner scenarios. -/

/-- The destination anchor of the collision round-trip scenario of the spec:
the folder `/dst`. -/
def dstNode : Node := .mk ["dst"] {Mode.folder} "dst" none none

/-- `exists` oracle of the scenario: only `/dst/x.txt` exists. -/
def ex9 : FPath → Bool := fun p => decide (p = ["dst", "x.txt"])

/-- Answer source of the scenario: the user always supplies `y.txt`. -/
def ans9 : Nat → Option String := fun _ => some "y.txt"

/-- An adversarial answer source: the user always re-supplies `x.txt`,
the very name that collides. -/
def ans4 : Nat → Option String := fun _ => some "x.txt"

/-- The loop state with the single collision `/src/x.txt -> /dst/x.txt`
and `k` prompts already issued. -/
def st4k (k : Nat) : LoopState :=
  ⟨[(["src", "x.txt"], ["dst", "x.txt"])], [], k⟩

/-- An answer source that never answers. -/
def ansDecline : Nat → Option String := fun _ => none

/-- An `exists` oracle on which every path exists. -/
def exAll : FPath → Bool := fun _ => true

/-!  Theorems.  -/

lemma mem_modeIf {c : Bool} {m m' : Mode} :
    m' ∈ modeIf c m ↔ c = true ∧ m' = m := by
  cases c <;> simp [modeIf]

lemma folder_mem_fs_modes (b : Nat) :
    Mode.folder ∈ _fs_modes b ↔ S_ISDIR b = true := by
  simp [_fs_modes, mem_modeIf, Finset.mem_union]

lemma file_mem_fs_modes (b : Nat) :
    Mode.file ∈ _fs_modes b ↔ S_ISREG b = true := by
  simp [_fs_modes, mem_modeIf, Finset.mem_union]

lemma fs_modes_excl (b : Nat) :
    ¬(Mode.folder ∈ _fs_modes b ∧ Mode.file ∈ _fs_modes b) := by
  rintro ⟨h1, h2⟩
  rw [folder_mem_fs_modes] at h1
  rw [file_mem_fs_modes] at h2
  simp only [S_ISDIR, S_ISREG, beq_iff_eq] at h1 h2
  rw [h1] at h2
  exact absurd h2 (by decide)

/-- C3, counterexample: at a character device with permission bits
`0o600`, `_fs_stat` returns the empty mode set — the claimed
non-emptiness of the classification fails. -/
theorem C3_cex : _fs_stat fsChar ["dev", "tty0"] = .ok (∅ : Finset Mode) := by
  rfl

/-- C3 (amended): the mode set produced by `_fs_stat` never contains
both `folder` and `file` (the type bit field selects at most one of
them), but it can be empty — see the counterexample. -/
theorem C3_folder_file_exclusive (fs : Fs) (p : FPath) (m : Finset Mode)
    (h : _fs_stat fs p = .ok m) : ¬(Mode.folder ∈ m ∧ Mode.file ∈ m) := by
  rintro ⟨hfo, hfi⟩
  unfold _fs_stat at h
  split at h
  · cases h
    simp at hfo
  · simp at h
  · split at h
    · split at h
      · cases h
        simp at hfo
      · simp at h
      · cases h
        simp only [Finset.mem_union, Finset.mem_singleton] at hfo hfi
        rcases hfo with hfo | hfo
        · rcases hfi with hfi | hfi
          · exact fs_modes_excl _ ⟨hfo, hfi⟩
          · exact Mode.noConfusion hfi
        · exact Mode.noConfusion hfo
    · cases h
      exact fs_modes_excl _ ⟨hfo, hfi⟩

/-- C3, witness: the exclusivity theorem applied at the concrete folder
`["r"]` of `fs0`, whose classification is `{folder, executable}`. -/
theorem C3_witness :
    ¬(Mode.folder ∈ ({Mode.folder, Mode.executable} : Finset Mode) ∧
      Mode.file ∈ ({Mode.folder, Mode.executable} : Finset Mode)) :=
  C3_folder_file_exclusive fs0 ["r"] _ (by rfl)

/-- C2, counterexample: a stat failure other than not-found (permission
denied) is not absorbed into `{orphan_link}` — it escapes `_fs_stat` as
an error, refuting "never raises". -/
theorem C2_cex : _fs_stat fsPerm ["q"] = .error .permissionDenied := by
  rfl

/-- C2 (amended): `_fs_stat` absorbs exactly the not-found failures of
the underlying stat calls into `{orphan_link}` — both the no-follow stat
and, for a symlink, the follow stat; every other failure of either stat
call propagates out unchanged. -/
theorem C2_only_not_found_absorbed (fs : Fs) (p : FPath) :
    (fs.statNF p = .error .fileNotFound → _fs_stat fs p = .ok {Mode.orphan_link}) ∧
    (∀ e, e ≠ OsErr.fileNotFound → fs.statNF p = .error e → _fs_stat fs p = .error e) ∧
    (∀ b, fs.statNF p = .ok b → S_ISLNK b = true →
      (fs.statF p = .error .fileNotFound → _fs_stat fs p = .ok {Mode.orphan_link}) ∧
      (∀ e, e ≠ OsErr.fileNotFound → fs.statF p = .error e →
        _fs_stat fs p = .error e)) := by
  refine ⟨?_, ?_, ?_⟩
  · intro h
    unfold _fs_stat
    rw [h]
  · intro e he h
    unfold _fs_stat
    rw [h]
    cases e with
    | fileNotFound => exact absurd rfl he
    | permissionDenied => rfl
    | otherErr => rfl
  · intro b hb hl
    constructor
    · intro h2
      unfold _fs_stat
      rw [hb]
      simp only [hl, if_true]
      rw [h2]
    · intro e he h2
      unfold _fs_stat
      rw [hb]
      simp only [hl, if_true]
      rw [h2]
      cases e with
      | fileNotFound => exact absurd rfl he
      | permissionDenied => rfl
      | otherErr => rfl

/-- C2, witness: all branches of the amended theorem at concrete
snapshots — a missing path is absorbed, a permission failure of the
no-follow stat propagates, a dangling symlink is absorbed, and a
permission failure of the follow stat propagates. -/
theorem C2_witness :
    _fs_stat fsEmpty ["q"] = .ok {Mode.orphan_link} ∧
    _fs_stat fsPerm ["q"] = .error .permissionDenied ∧
    _fs_stat fsDangling ["ln"] = .ok {Mode.orphan_link} ∧
    _fs_stat fsLinkPerm ["ln"] = .error .permissionDenied :=
  ⟨(C2_only_not_found_absorbed fsEmpty ["q"]).1 rfl,
   (C2_only_not_found_absorbed fsPerm ["q"]).2.1 .permissionDenied (by decide) rfl,
   ((C2_only_not_found_absorbed fsDangling ["ln"]).2.2 0o120777 rfl (by decide)).1 rfl,
   ((C2_only_not_found_absorbed fsLinkPerm ["ln"]).2.2 0o120777 rfl (by decide)).2
     .permissionDenied (by decide) rfl⟩

/-- C6 (confirmed): for a path whose no-follow stat reports a symlink,
a not-found failure of the follow stat yields exactly `{orphan_link}`
(without the `link` tag), and a resolving follow stat yields the
classification of the bits of the target union `{link}`. -/
theorem C6_link_classification (fs : Fs) (p : FPath) (b : Nat)
    (h : fs.statNF p = .ok b) (hl : S_ISLNK b = true) :
    (fs.statF p = .error .fileNotFound →
      _fs_stat fs p = .ok {Mode.orphan_link} ∧
      Mode.link ∉ ({Mode.orphan_link} : Finset Mode)) ∧
    (∀ b2, fs.statF p = .ok b2 →
      _fs_stat fs p = .ok (_fs_modes b2 ∪ {Mode.link})) := by
  constructor
  · intro h2
    refine ⟨?_, by decide⟩
    unfold _fs_stat
    rw [h]
    simp only [hl, if_true]
    rw [h2]
  · intro b2 h2
    unfold _fs_stat
    rw [h]
    simp only [hl, if_true]
    rw [h2]

/-- C6, witness: the dangling-symlink branch at the concrete snapshot
`fsDangling`. -/
theorem C6_witness :
    fsDangling.statNF ["ln"] = .ok 0o120777 ∧
    S_ISLNK 0o120777 = true ∧
    _fs_stat fsDangling ["ln"] = .ok {Mode.orphan_link} :=
  ⟨rfl, by decide,
   ((C6_link_classification fsDangling ["ln"] 0o120777 rfl (by decide)).1 rfl).1⟩

lemma new_path (fs : Fs) (fuel : Nat) (p : FPath) (index : Index) (nd : Node)
    (h : new fs fuel p index = .ok nd) : nd.path = p := by
  cases fuel with
  | zero => simp [new] at h
  | succ fuel =>
    unfold new at h
    cases hs : _fs_stat fs p with
    | error e => rw [hs] at h; simp at h
    | ok mode =>
      rw [hs] at h
      dsimp only at h
      by_cases hf : Mode.folder ∉ mode
      · rw [if_pos hf] at h
        cases h
        rfl
      · rw [if_neg hf] at h
        by_cases hi : p ∈ index
        · rw [if_pos hi] at h
          cases hl : fs.listing p with
          | error e => rw [hl] at h; simp at h
          | ok entries =>
            rw [hl] at h
            dsimp only at h
            cases hm : mapME (fun d => (new fs fuel (p ++ [d]) index).map
                (fun nd => (p ++ [d], nd))) entries with
            | error e => rw [hm] at h; simp at h
            | ok pairs =>
              rw [hm] at h
              cases h
              rfl
        · rw [if_neg hi] at h
          cases h
          rfl

lemma keys_ofList (l : List (FPath × Node)) :
    (Children.ofList l).keys = l.map Prod.fst := by
  induction l with
  | nil => rfl
  | cons x xs ih =>
    cases x
    simp [Children.ofList, Children.keys, ih]

lemma entries_ofList (l : List (FPath × Node)) :
    (Children.ofList l).entries = l := by
  induction l with
  | nil => rfl
  | cons x xs ih =>
    cases x
    simp [Children.ofList, Children.entries, ih]

lemma except_map_ok {ε α β : Type} (f : α → β) (a : α) :
    (Except.ok a : Except ε α).map f = .ok (f a) := rfl

lemma except_map_error {ε α β : Type} (f : α → β) (e : ε) :
    (Except.error e : Except ε α).map f = .error e := rfl

lemma mapME_new_spec (fs : Fs) (fuel : Nat) (index : Index) (p : FPath) :
    ∀ (entries : List String) (pairs : List (FPath × Node)),
      mapME (fun d => (new fs fuel (p ++ [d]) index).map
        (fun nd => (p ++ [d], nd))) entries = .ok pairs →
      pairs.map Prod.fst = entries.map (fun d => p ++ [d]) ∧
      ∀ pr ∈ pairs, pr.2.path = pr.1 := by
  intro entries
  induction entries with
  | nil =>
    intro pairs h
    simp only [mapME] at h
    cases h
    simp
  | cons d ds ih =>
    intro pairs h
    simp only [mapME] at h
    cases hn : new fs fuel (p ++ [d]) index with
    | error e =>
      rw [hn, except_map_error] at h
      simp at h
    | ok nd =>
      rw [hn, except_map_ok] at h
      dsimp only at h
      cases hrest : mapME (fun d => (new fs fuel (p ++ [d]) index).map
          (fun nd => (p ++ [d], nd))) ds with
      | error e =>
        rw [hrest, except_map_error] at h
        simp at h
      | ok rest =>
        rw [hrest, except_map_ok] at h
        cases h
        obtain ⟨ih1, ih2⟩ := ih rest hrest
        refine ⟨by simp [ih1], ?_⟩
        intro pr hpr
        rcases List.mem_cons.mp hpr with hpr | hpr
        · subst hpr
          exact new_path fs fuel (p ++ [d]) index nd hn
        · exact ih2 pr hpr

/-- C7 (confirmed): for a node `new` builds whose mode contains `folder`,
the children mapping is absent exactly when the path is outside the
expansion index; when present, its keys are exactly the immediate child
paths the directory listing reports (each `p` joined with the entry
name), and every key equals the `path` of its value. -/
theorem C7_children_iff_index (fs : Fs) (fuel : Nat) (p : FPath) (index : Index)
    (nd : Node) (h : new fs fuel p index = .ok nd) (hfold : Mode.folder ∈ nd.mode) :
    (p ∉ index → nd.children = none) ∧
    (p ∈ index → ∃ entries cs, fs.listing p = .ok entries ∧ nd.children = some cs ∧
      cs.keys = entries.map (fun d => p ++ [d]) ∧
      ∀ pr ∈ cs.entries, pr.2.path = pr.1) := by
  cases fuel with
  | zero => simp [new] at h
  | succ fuel =>
    unfold new at h
    cases hs : _fs_stat fs p with
    | error e => rw [hs] at h; simp at h
    | ok mode =>
      rw [hs] at h
      dsimp only at h
      by_cases hf : Mode.folder ∉ mode
      · rw [if_pos hf] at h
        cases h
        exact absurd hfold hf
      · rw [if_neg hf] at h
        by_cases hi : p ∈ index
        · rw [if_pos hi] at h
          cases hl : fs.listing p with
          | error e => rw [hl] at h; simp at h
          | ok entries =>
            rw [hl] at h
            dsimp only at h
            cases hm : mapME (fun d => (new fs fuel (p ++ [d]) index).map
                (fun nd => (p ++ [d], nd))) entries with
            | error e => rw [hm] at h; simp at h
            | ok pairs =>
              rw [hm] at h
              cases h
              obtain ⟨hm1, hm2⟩ := mapME_new_spec fs fuel index p entries pairs hm
              refine ⟨fun hni => absurd hi hni, fun _ => ⟨entries, Children.ofList pairs, rfl, rfl, ?_, ?_⟩⟩
              · rw [keys_ofList, hm1]
              · rw [entries_ofList]
                exact hm2
        · rw [if_neg hi] at h
          cases h
          exact ⟨fun _ => rfl, fun hi2 => absurd hi2 hi⟩

/-- C7, witness: the theorem at the concrete snapshot `fs0` with the
root expanded: the built children keys are exactly `r/a.txt` and `r/b`. -/
theorem C7_witness :
    new fs0 3 ["r"] [["r"]] = .ok nd0 ∧
    (∃ entries cs, fs0.listing ["r"] = .ok entries ∧ nd0.children = some cs ∧
      cs.keys = entries.map (fun d => ["r"] ++ [d]) ∧
      ∀ pr ∈ cs.entries, pr.2.path = pr.1) :=
  ⟨by rfl,
   (C7_children_iff_index fs0 3 ["r"] [["r"]] nd0 (by rfl) (by decide)).2 (by simp)⟩

/-- C8 (confirmed): whenever the `_update` walk fails with the not-found
error class, `update` returns the result of a fresh `new` build of the
path of the root instead of propagating the error. -/
theorem C8_root_self_heal (fs : Fs) (fuel : Nat) (index : Index)
    (paths : List FPath) (root : Node)
    (h : _update fs fuel index paths root = .error (.os .fileNotFound)) :
    update fs fuel root index paths = new fs fuel root.path index := by
  unfold update
  rw [h]

/-- C8, witness: on the race snapshot `fs8` the walk raises not-found
(the child can no longer be listed), and `update` self-heals into the
fresh single-node build of the vanished root, classified `{orphan_link}`. -/
theorem C8_witness :
    _update fs8 3 [["r", "c"]] [["r", "c"]] tree8 = .error (.os .fileNotFound) ∧
    update fs8 3 tree8 [["r", "c"]] [["r", "c"]]
      = .ok (.mk ["r"] {Mode.orphan_link} "r" none (some "")) :=
  ⟨by rfl, by
    rw [C8_root_self_heal fs8 3 [["r", "c"]] [["r", "c"]] tree8 (by rfl)]
    rfl⟩

/-- C1, counterexample: a leaf node (children absent) whose path is not
among the changed paths is not left as-is by the update walk — it comes
back with a present, empty children mapping, exactly the built-then-empty
state the claim rules out. -/
theorem C1_cex :
    leaf0.children = none ∧
    _update fsEmpty 1 [] [] leaf0
      = .ok (.mk ["r", "a.txt"] {Mode.file} "a.txt" (some Children.nil) (some ".txt")) ∧
    (Node.mk ["r", "a.txt"] {Mode.file} "a.txt" (some Children.nil) (some ".txt")).children
      ≠ none :=
  ⟨by rfl, by rfl, by simp [Node.children]⟩

/-- C1 (amended): at a node whose path is not a member of the changed
paths, the update walk preserves the identity fields (path, mode, name,
ext), but always rebuilds the children mapping as a *present* one: a node
with absent children yields a present empty mapping, not an absent one. -/
theorem C1_update_frame (fs : Fs) (fuel : Nat) (index : Index) (paths : List FPath)
    (p : FPath) (m : Finset Mode) (n : String) (ch : Option Children)
    (e : Option String) (nd : Node) (hp : p ∉ paths)
    (h : _update fs fuel index paths (.mk p m n ch e) = .ok nd) :
    nd.path = p ∧ nd.mode = m ∧ nd.name = n ∧ nd.ext = e ∧
    ∃ cs, nd.children = some cs ∧ (ch = none → cs = Children.nil) := by
  unfold _update at h
  rw [if_neg hp] at h
  cases ch with
  | none =>
    cases h
    exact ⟨rfl, rfl, rfl, rfl, Children.nil, rfl, fun _ => rfl⟩
  | some cs =>
    dsimp only at h
    cases hc : _updateChildren fs fuel index paths cs with
    | error e2 => rw [hc] at h; simp at h
    | ok cs2 =>
      rw [hc] at h
      cases h
      exact ⟨rfl, rfl, rfl, rfl, cs2, rfl, fun hn => by simp at hn⟩

/-- C1, witness: the amended theorem at the concrete leaf `leaf0` with no
changed paths. -/
theorem C1_witness :
    (Node.mk ["r", "a.txt"] {Mode.file} "a.txt" (some Children.nil) (some ".txt")).path
      = ["r", "a.txt"] ∧
    (Node.mk ["r", "a.txt"] {Mode.file} "a.txt" (some Children.nil) (some ".txt")).mode
      = {Mode.file} ∧
    (Node.mk ["r", "a.txt"] {Mode.file} "a.txt" (some Children.nil) (some ".txt")).name
      = "a.txt" ∧
    (Node.mk ["r", "a.txt"] {Mode.file} "a.txt" (some Children.nil) (some ".txt")).ext
      = some ".txt" ∧
    ∃ cs, (Node.mk ["r", "a.txt"] {Mode.file} "a.txt" (some Children.nil) (some ".txt")).children
      = some cs ∧ ((none : Option Children) = none → cs = Children.nil) :=
  C1_update_frame fsEmpty 1 [] [] ["r", "a.txt"] {Mode.file} "a.txt" none (some ".txt")
    _ (by simp) (by rfl)

lemma collision_loop_fix (fuel k : Nat) :
    collision_loop ex9 ans4 fuel (st4k k) = .out_of_fuel (st4k (k + fuel)) := by
  induction fuel generalizing k with
  | zero => rfl
  | succ f ih =>
    have h1 : collision_loop ex9 ans4 (f + 1) (st4k k)
        = collision_loop ex9 ans4 f (st4k (k + 1)) := rfl
    exact h1.trans ((ih (k + 1)).trans
      (congrArg (fun n => LoopOut.out_of_fuel (st4k n)) (by omega)))

/-- C4, counterexample: with a single colliding entry and the answer
stream that keeps re-supplying the colliding name `x.txt`, the
negotiation loop never exits — every step budget is exhausted and the one
entry is re-prompted once per answer, without bound.  This refutes "each
collision entry is negotiated a bounded number of times and the loop
terminates" for every answer sequence. -/
theorem C4_cex : loopRunsForever ex9 ans4 (st4k 0) :=
  fun fuel => ⟨st4k (0 + fuel), collision_loop_fix fuel 0⟩

/-- C4 (amended): each loop iteration consumes exactly one interactive
answer, so the loop terminates whenever the answer sequence declines at
some point (and, a fortiori, for every finite interaction): if answer
number `k` is "no answer", the loop exits within `k - st.prompts + 1`
further iterations.  It does *not* terminate for every infinite answer
sequence — see the counterexample. -/
theorem C4_loop_terminates_on_decline (ex : FPath → Bool)
    (ans : Nat → Option String) (k : Nat) (hk : ans k = none) :
    ∀ (fuel : Nat) (st : LoopState), st.prompts ≤ k → k - st.prompts < fuel →
      ∃ st2, collision_loop ex ans fuel st = .done st2 := by
  intro fuel
  induction fuel with
  | zero =>
    intro st h1 h2
    omega
  | succ f ih =>
    intro st h1 h2
    rcases hlast : st.pre.getLast? with _ | ⟨s, d⟩
    · exact ⟨st, by rw [collision_loop, hlast]⟩
    · by_cases hke : st.prompts = k
      · refine ⟨⟨st.pre.dropLast ++ [(s, d)], st.renamed, st.prompts + 1⟩, ?_⟩
        rw [collision_loop, hlast]
        dsimp only
        rw [hke, hk]
      · have hlt : st.prompts < k := lt_of_le_of_ne h1 hke
        cases hresp : ans st.prompts with
        | none =>
          refine ⟨⟨st.pre.dropLast ++ [(s, d)], st.renamed, st.prompts + 1⟩, ?_⟩
          rw [collision_loop, hlast]
          dsimp only
          rw [hresp]
        | some r =>
          by_cases hr : r = ""
          · refine ⟨⟨st.pre.dropLast ++ [(s, d)], st.renamed, st.prompts + 1⟩, ?_⟩
            rw [collision_loop, hlast]
            dsimp only
            rw [hresp]
            dsimp only
            rw [if_pos hr]
          · by_cases he : ex (parentPath d ++ [r]) = true
            · obtain ⟨st2, hst2⟩ := ih
                ⟨st.pre.dropLast ++ [(s, parentPath d ++ [r])], st.renamed, st.prompts + 1⟩
                (by show st.prompts + 1 ≤ k; omega)
                (by show k - (st.prompts + 1) < f; omega)
              refine ⟨st2, ?_⟩
              rw [collision_loop, hlast]
              dsimp only
              rw [hresp]
              dsimp only
              rw [if_neg hr]
              dsimp only
              rw [if_pos he]
              exact hst2
            · obtain ⟨st2, hst2⟩ := ih
                ⟨st.pre.dropLast, st.renamed ++ [(s, parentPath d ++ [r])], st.prompts + 1⟩
                (by show st.prompts + 1 ≤ k; omega)
                (by show k - (st.prompts + 1) < f; omega)
              refine ⟨st2, ?_⟩
              rw [collision_loop, hlast]
              dsimp only
              rw [hresp]
              dsimp only
              rw [if_neg hr]
              dsimp only
              rw [if_neg he]
              exact hst2

/-- C4, witness: the amended theorem at a concrete input — one collision,
an answer source that immediately declines, budget 1. -/
theorem C4_witness :
    ansDecline 0 = none ∧
    ∃ st2, collision_loop exAll ansDecline 1 (st4k 0) = .done st2 :=
  ⟨rfl, C4_loop_terminates_on_decline exAll ansDecline 0 rfl 1 (st4k 0)
    (by decide) (by decide)⟩

/-- C5 (confirmed): (1) when a prompt is declined ("no answer"), the
loop re-inserts the declined entry and exits after that single prompt —
no further collision entry is prompted (the prompt counter advances by
exactly one); (2) whenever entries remain unresolved after the loop, the
operation reports exactly the full remaining source-to-destination list,
deterministically ordered by the path-aware sort, as a blocking error —
and the `action` (the only filesystem-mutating step, the `committed`
outcome) is never invoked. -/
theorem C5_decline_stops_and_blocks (ex : FPath → Bool) (ans : Nat → Option String) :
    (∀ (st : LoopState) (s d : FPath) (fuel : Nat),
      st.pre.getLast? = some (s, d) → ans st.prompts = none →
      collision_loop ex ans (fuel + 1) st
        = .done ⟨st.pre.dropLast ++ [(s, d)], st.renamed, st.prompts + 1⟩) ∧
    (∀ (node : Node) (selection : List FPath) (nono : List FPath)
      (confirm : Option Bool) (fuel : Nat) (st : LoopState),
      ¬(unify_ancestors selection).isEmpty →
      disjointP (unify_ancestors selection) nono = true →
      collision_loop ex ans fuel
        ⟨((unify_ancestors selection).map (fun src => (src, _find_dest src node))).filter
          (fun sd => ex sd.2), [], 0⟩ = .done st →
      ¬ st.pre.isEmpty →
      _operation (some node) selection nono ex ans confirm fuel
        = .collision_error (sortPairs st.pre) ∧
      ∀ ops, _operation (some node) selection nono ex ans confirm fuel
        ≠ .committed ops) := by
  constructor
  · intro st s d fuel hlast hans
    rw [collision_loop, hlast]
    dsimp only
    rw [hans]
  · intro node selection nono confirm fuel st h1 h2 h3 h4
    have hres : _operation (some node) selection nono ex ans confirm fuel
        = .collision_error (sortPairs st.pre) := by
      unfold _operation
      dsimp only
      rw [if_neg (by simp [h1])]
      rw [if_neg (by simp [h2])]
      rw [h3]
      dsimp only
      rw [if_pos h4]
    exact ⟨hres, fun ops hc => by rw [hres] at hc; exact OpResult.noConfusion hc⟩

/-- C5, witness: the concrete scenario — one collision, the user
declines, the loop stops after its single prompt, and the operation
reports the remaining pair without committing. -/
theorem C5_witness :
    collision_loop ex9 ansDecline 1 (st4k 0)
      = .done ⟨[(["src", "x.txt"], ["dst", "x.txt"])], [], 1⟩ ∧
    _operation (some dstNode) [["src", "x.txt"]] [] ex9 ansDecline none 5
      = .collision_error [(["src", "x.txt"], ["dst", "x.txt"])] := by
  constructor
  · exact (C5_decline_stops_and_blocks ex9 ansDecline).1 (st4k 0)
      ["src", "x.txt"] ["dst", "x.txt"] 0 (by rfl) rfl
  · exact ((C5_decline_stops_and_blocks ex9 ansDecline).2 dstNode
      [["src", "x.txt"]] [] none 5 ⟨[(["src", "x.txt"], ["dst", "x.txt"])], [], 1⟩
      (by decide) (by rfl) (by rfl) (by decide)).1

/-- C9 (confirmed): when the loop resolves every collision, the mapping
handed to the commit action is exactly the dict merge of the proposed
per-source destinations with the renamed entries (renamed overriding
proposed for the same source); the action runs only on the affirmative
confirmation answer, and any other answer (no, or no answer) cancels with
no mutation and no error. -/
theorem C9_confirm_and_merge (node : Node) (selection : List FPath)
    (nono : List FPath) (ex : FPath → Bool) (ans : Nat → Option String)
    (fuel : Nat) (st : LoopState)
    (h1 : ¬(unify_ancestors selection).isEmpty)
    (h2 : disjointP (unify_ancestors selection) nono = true)
    (h3 : collision_loop ex ans fuel
      ⟨((unify_ancestors selection).map (fun src => (src, _find_dest src node))).filter
        (fun sd => ex sd.2), [], 0⟩ = .done st)
    (h4 : st.pre.isEmpty) :
    (∀ confirm, confirm = some true →
      _operation (some node) selection nono ex ans confirm fuel
        = .committed (mergeOps ((unify_ancestors selection).map
            (fun src => (src, _find_dest src node))) st.renamed)) ∧
    (∀ confirm, confirm ≠ some true →
      _operation (some node) selection nono ex ans confirm fuel = .cancelled) := by
  have hbase : ∀ confirm, _operation (some node) selection nono ex ans confirm fuel
      = match confirm with
        | some true => .committed (mergeOps ((unify_ancestors selection).map
            (fun src => (src, _find_dest src node))) st.renamed)
        | _ => .cancelled := by
    intro confirm
    unfold _operation
    dsimp only
    rw [if_neg (by simp [h1])]
    rw [if_neg (by simp [h2])]
    rw [h3]
    dsimp only
    rw [if_neg (by simp [h4])]
  constructor
  · intro confirm hc
    rw [hbase, hc]
  · intro confirm hc
    rw [hbase]
    match confirm with
    | none => rfl
    | some true => exact absurd rfl hc
    | some false => rfl

/-- C9, witness: the collision round-trip scenario of the spec — source
`/src/x.txt`, folder anchor `/dst`, existing `/dst/x.txt`, answer
`y.txt`: commit receives exactly `{/src/x.txt -> /dst/y.txt}` on "yes",
and "no" cancels silently. -/
theorem C9_witness :
    _operation (some dstNode) [["src", "x.txt"]] [] ex9 ans9 (some true) 5
      = .committed [(["src", "x.txt"], ["dst", "y.txt"])] ∧
    _operation (some dstNode) [["src", "x.txt"]] [] ex9 ans9 (some false) 5
      = .cancelled := by
  have h := C9_confirm_and_merge dstNode [["src", "x.txt"]] [] ex9 ans9 5
    ⟨[], [(["src", "x.txt"], ["dst", "y.txt"])], 1⟩
    (by decide) (by rfl) (by rfl) (by rfl)
  exact ⟨h.1 (some true) rfl, h.2 (some false) (by simp)⟩

lemma disjointP_nil (a : List FPath) : disjointP a [] = true := by
  simp [disjointP]

/-- C10 (confirmed): the copy operation invokes the shared planner with
an empty forbidden set, so its forbidden-abort branch is unreachable for
every selection and every state — copying the working directory or the
tree root is permitted; only the cut operation, whose forbidden set
contains the working directory, the root and their ancestors, can abort
as forbidden (second conjunct: a concrete cut of the working directory
does). -/
theorem C10_copy_never_forbidden :
    (∀ (node : Option Node) (selection : List FPath) (ex : FPath → Bool)
      (ans : Nat → Option String) (confirm : Option Bool) (fuel : Nat),
      _copy node selection ex ans confirm fuel ≠ .forbidden) ∧
    _cut ["home", "u"] ["home", "u", "proj"]
      (some (.mk ["home", "u", "proj"] {Mode.folder} "proj" none none))
      [["home", "u"]] (fun _ => false) (fun _ => none) none 1 = .forbidden := by
  constructor
  · intro node selection ex ans confirm fuel
    unfold _copy _operation
    dsimp only
    split
    · simp
    · cases node with
      | none => simp
      | some nd =>
        dsimp only
        rw [if_neg (by simp [disjointP_nil])]
        cases collision_loop ex ans fuel
            ⟨((unify_ancestors selection).map (fun src => (src, _find_dest src nd))).filter
              (fun sd => ex sd.2), [], 0⟩ with
        | out_of_fuel st => simp
        | done st =>
          dsimp only
          split
          · simp
          · cases confirm with
            | none => simp
            | some b => cases b <;> simp
  · rfl

/-- C10, witness: the unreachability of the forbidden branch for copy,
instantiated at the concrete scenario state. -/
theorem C10_witness :
    _copy (some dstNode) [["src", "x.txt"]] ex9 ans9 (some true) 5 ≠ .forbidden :=
  C10_copy_never_forbidden.1 (some dstNode) [["src", "x.txt"]] ex9 ans9 (some true) 5

end Chadtree
